import Mathlib

/-!
Shallow embedding of the SVG structural parser in
backend/src/utils/svgParser.ts (function parseSvg and its inner helper
extractAllElements).

Modelling decisions, in brief:

- JavaScript numbers are modelled by JNum: an exact rational together with
  NaN and the two infinities.  Rounding of IEEE doubles is abstracted to
  exact rational arithmetic; NaN and infinity propagation follow the
  JavaScript rules because several behaviours of the source hinge on them.
- The attributed tree produced by the external XML parser (xml2js) is
  modelled as a heap: a Store maps numeric node identities to node objects.
  A child reference (JRef) is either a primitive string (how xml2js renders
  attribute-less empty elements such as "<rect/>") or a node identity.
  Identities make the WeakSet-based visited check of the source expressible
  and allow genuinely cyclic or shared structures, which the source defends
  against.
- The recursive walker extractAllElements carries an explicit gas parameter
  so that it is structurally recursive; gas plays the role of the unbounded
  JavaScript call stack.  A dedicated theorem shows that any gas of at
  least 102 (one more than the depth guard of the source, plus one for the
  initial call) yields the same result and never exhausts the gas, which is
  the termination property of the source.
- A thrown JavaScript exception (TypeError from a property access on
  undefined, or from adding a primitive to a WeakSet) is modelled as
  Except.error (); the promise rejection of the source discards all state,
  so the error payload is irrelevant.
-/

/-- JavaScript number: exact rational, NaN, or an infinity. -/
inductive JNum where
  | num (q : ℚ)
  | posInf
  | negInf
  | nan
deriving DecidableEq, Repr

/-- JavaScript isNaN on a number. -/
def JNum.isNaN : JNum → Bool
  | JNum.nan => true
  | _ => false

/-- JavaScript strict less-than; any comparison with NaN is false. -/
def JNum.lt : JNum → JNum → Bool
  | JNum.num a, JNum.num b => decide (a < b)
  | JNum.num _, JNum.posInf => true
  | JNum.negInf, JNum.num _ => true
  | JNum.negInf, JNum.posInf => true
  | _, _ => false

/-- JavaScript strict greater-than. -/
def JNum.gt (a b : JNum) : Bool := JNum.lt b a

/-- JavaScript strict equality on numbers; NaN is not equal to itself. -/
def JNum.eqJs : JNum → JNum → Bool
  | JNum.num a, JNum.num b => decide (a = b)
  | JNum.posInf, JNum.posInf => true
  | JNum.negInf, JNum.negInf => true
  | _, _ => false

/-- JavaScript addition with NaN and infinity propagation. -/
def JNum.add : JNum → JNum → JNum
  | JNum.nan, _ => JNum.nan
  | _, JNum.nan => JNum.nan
  | JNum.posInf, JNum.negInf => JNum.nan
  | JNum.negInf, JNum.posInf => JNum.nan
  | JNum.posInf, _ => JNum.posInf
  | _, JNum.posInf => JNum.posInf
  | JNum.negInf, _ => JNum.negInf
  | _, JNum.negInf => JNum.negInf
  | JNum.num a, JNum.num b => JNum.num (a + b)

/-- JavaScript multiplication; an infinity times zero is NaN. -/
def JNum.mul : JNum → JNum → JNum
  | JNum.nan, _ => JNum.nan
  | _, JNum.nan => JNum.nan
  | JNum.posInf, JNum.posInf => JNum.posInf
  | JNum.posInf, JNum.negInf => JNum.negInf
  | JNum.negInf, JNum.posInf => JNum.negInf
  | JNum.negInf, JNum.negInf => JNum.posInf
  | JNum.posInf, JNum.num b =>
      if b = 0 then JNum.nan else if 0 < b then JNum.posInf else JNum.negInf
  | JNum.num a, JNum.posInf =>
      if a = 0 then JNum.nan else if 0 < a then JNum.posInf else JNum.negInf
  | JNum.negInf, JNum.num b =>
      if b = 0 then JNum.nan else if 0 < b then JNum.negInf else JNum.posInf
  | JNum.num a, JNum.negInf =>
      if a = 0 then JNum.nan else if 0 < a then JNum.negInf else JNum.posInf
  | JNum.num a, JNum.num b => JNum.num (a * b)

/-- JavaScript division with the IEEE special cases. -/
def JNum.div : JNum → JNum → JNum
  | JNum.nan, _ => JNum.nan
  | _, JNum.nan => JNum.nan
  | JNum.posInf, JNum.posInf => JNum.nan
  | JNum.posInf, JNum.negInf => JNum.nan
  | JNum.negInf, JNum.posInf => JNum.nan
  | JNum.negInf, JNum.negInf => JNum.nan
  | JNum.posInf, JNum.num b => if 0 ≤ b then JNum.posInf else JNum.negInf
  | JNum.negInf, JNum.num b => if 0 ≤ b then JNum.negInf else JNum.posInf
  | JNum.num _, JNum.posInf => JNum.num 0
  | JNum.num _, JNum.negInf => JNum.num 0
  | JNum.num a, JNum.num b =>
      if b = 0 then
        (if a = 0 then JNum.nan else if 0 < a then JNum.posInf else JNum.negInf)
      else JNum.num (a / b)

/-- True exactly for a finite nonnegative number (so neither NaN nor an
infinity).  Used to state sign facts about the coverage computation. -/
def JNum.isNonnegNum : JNum → Bool
  | JNum.num q => decide (0 ≤ q)
  | _ => false

/-- Characters treated as whitespace by JavaScript parseFloat and by the
regular expression class backslash-s (the common ones suffice here). -/
def jsWhitespace (c : Char) : Bool :=
  c = ' ' ∨ c = '\t' ∨ c = '\n' ∨ c = '\r' ∨ c = '\x0b' ∨ c = '\x0c'

/-- Numeric value of a list of decimal digit characters. -/
def digitsVal (ds : List Char) : ℕ :=
  ds.foldl (fun a c => 10 * a + (c.toNat - 48)) 0

/-- Signed exponent suffix accepted by parseFloat: the letter e or E,
an optional sign, then digits; an exponent with no digits contributes 0
(parseFloat stops before it). -/
def expVal (cs : List Char) : ℤ :=
  match cs with
  | [] => 0
  | c :: rest =>
    if c = 'e' ∨ c = 'E' then
      match rest with
      | '+' :: r2 =>
          let ds := r2.takeWhile Char.isDigit
          if ds = [] then 0 else (digitsVal ds : ℤ)
      | '-' :: r2 =>
          let ds := r2.takeWhile Char.isDigit
          if ds = [] then 0 else -(digitsVal ds : ℤ)
      | _ =>
          let ds := rest.takeWhile Char.isDigit
          if ds = [] then 0 else (digitsVal ds : ℤ)
    else 0

/-- JavaScript parseFloat: skip leading whitespace, read an optional sign,
then the longest decimal-literal prefix (or the literal Infinity); yield
NaN when no digits are present. -/
def jsParseFloat (str : String) : JNum :=
  let cs := str.toList.dropWhile jsWhitespace
  let signAndRest : Bool × List Char :=
    match cs with
    | '+' :: r => (false, r)
    | '-' :: r => (true, r)
    | _ => (false, cs)
  let neg := signAndRest.1
  let cs1 := signAndRest.2
  if cs1.take 8 = ['I', 'n', 'f', 'i', 'n', 'i', 't', 'y'] then
    if neg then JNum.negInf else JNum.posInf
  else
    let ints := cs1.takeWhile Char.isDigit
    let r1 := cs1.dropWhile Char.isDigit
    let fracAndRest : List Char × List Char :=
      match r1 with
      | '.' :: rest => (rest.takeWhile Char.isDigit, rest.dropWhile Char.isDigit)
      | _ => ([], r1)
    let fracs := fracAndRest.1
    let r2 := fracAndRest.2
    if ints = [] ∧ fracs = [] then JNum.nan
    else
      let e : ℤ := expVal r2
      let mant : ℚ := (digitsVal ints : ℚ) + (digitsVal fracs : ℚ) / ((10 : ℚ) ^ fracs.length)
      let v : ℚ := mant * (10 : ℚ) ^ e
      JNum.num (if neg then -v else v)

/-- The regular-expression replacement of the source that keeps only
decimal digits and the dot in a width or height attribute. -/
def stripNonDigitDot (s : String) : String :=
  String.mk (s.toList.filter (fun c => c.isDigit || c = '.'))

/-- Split a character list on maximal runs of separator characters, with
the JavaScript String.split semantics: a leading or trailing run produces
an empty token. -/
def splitSep (p : Char → Bool) (cs : List Char) : List String :=
  (cs.foldr
    (fun c st =>
      if p c then (if st.2 then st else ([] :: st.1, true))
      else
        match st.1 with
        | [] => ([[c]], false)
        | t :: ts => ((c :: t) :: ts, false))
    (([[]] : List (List Char)), false)).1.map String.mk

/-- Split on runs of whitespace or commas, as the viewBox parsing of the
source does. -/
def splitWsComma (s : String) : List String :=
  splitSep (fun c => jsWhitespace c || c = ',') s.toList

/-- Attribute map of a node: association list from attribute names to
string values, first binding wins. -/
def AttrMap := List (String × String)

/-- First-match lookup in an attribute map. -/
def lookupA : AttrMap → String → Option String
  | [], _ => none
  | (k, v) :: rest, key => if k = key then some v else lookupA rest key

/-- JavaScript attribute-or-default: the expression attrs.k or-else dflt,
where an absent attribute and an empty string are both falsy. -/
def attrOr (m : AttrMap) (k dflt : String) : String :=
  match lookupA m k with
  | some s => if s = "" then dflt else s
  | none => dflt

/-- A reference held in a child slot: either a primitive string (how the
external XML parser renders text and attribute-less empty elements) or the
identity of a node object. -/
inductive JRef where
  | str (s : String)
  | node (id : ℕ)
deriving DecidableEq, Repr

/-- A child slot value: a single reference or an array of references (the
external parser may or may not wrap siblings in an array). -/
inductive JChild where
  | one (r : JRef)
  | many (rs : List JRef)
deriving DecidableEq, Repr

/-- A node object: optional attribute map (the dollar key of xml2js) and
an association list of child slots keyed by tag name. -/
structure NodeObj where
  attrs : Option AttrMap
  children : List (String × JChild)

/-- The heap of node objects, keyed by identity. -/
def Store := List (ℕ × NodeObj)

/-- First-match lookup of a node object by identity. -/
def lookupStore : Store → ℕ → Option NodeObj
  | [], _ => none
  | (i, o) :: rest, id => if i = id then some o else lookupStore rest id

/-- Node object for an identity, defaulting to an empty object; in
JavaScript a held reference always resolves, so the default is inert. -/
def getObj (store : Store) (id : ℕ) : NodeObj :=
  (lookupStore store id).getD { attrs := none, children := [] }

/-- First-match lookup of a child slot by tag name. -/
def lookupChild (obj : NodeObj) (t : String) : Option JChild :=
  let go : List (String × JChild) → Option JChild :=
    fun l => l.foldr (fun (kv : String × JChild) acc =>
      if kv.1 = t then some kv.2 else acc) none
  go obj.children

/-- JavaScript truthiness of a reference: the empty string is falsy. -/
def refTruthy : JRef → Bool
  | JRef.str s => s ≠ ""
  | JRef.node _ => true

/-- JavaScript truthiness of a child slot: an array is always truthy, a
single reference is truthy unless it is the empty string. -/
def childTruthy : JChild → Bool
  | JChild.one r => refTruthy r
  | JChild.many _ => true

/-- The normalisation Array.isArray(x) ? x : [x] of the source. -/
def toArray : JChild → List JRef
  | JChild.one r => [r]
  | JChild.many rs => rs

/-- References held in a truthy child slot for a tag; empty when the slot
is absent or falsy, exactly as the if-guards of the source behave. -/
def childRefs (obj : NodeObj) (t : String) : List JRef :=
  match lookupChild obj t with
  | some ch => if childTruthy ch then toArray ch else []
  | none => []

/-- The issue enumeration of the source. -/
inductive DesignIssue where
  | EMPTY
  | OUT_OF_BOUNDS
deriving DecidableEq, Repr

/-- The per-rectangle item assembled by the source. -/
structure DesignItem where
  x : JNum
  y : JNum
  width : JNum
  height : JNum
  fill : String
  issue : Option DesignIssue
deriving DecidableEq, Repr

/-- Numeric rectangle attribute: parseFloat(rect.attrs.k or-else "0"). -/
def rectNum (m : AttrMap) (k : String) : JNum :=
  jsParseFloat (attrOr m k "0")

/-- The out-of-bounds test of the source, with JavaScript comparison
semantics (NaN makes every comparison false). -/
def oobCheck (sw sh x y w h : JNum) : Bool :=
  x.lt (JNum.num 0) || y.lt (JNum.num 0) || (x.add w).gt sw || (y.add h).gt sh

/-- Rectangle extraction for one rect reference.  A primitive string or a
node without an attribute map makes the property chain rect.attrs.x throw
a TypeError, modelled as an error. -/
def extractRect (store : Store) (sw sh : JNum) (r : JRef) : Except Unit DesignItem :=
  match r with
  | JRef.str _ => Except.error ()
  | JRef.node id =>
    match lookupStore store id with
    | none => Except.error ()
    | some obj =>
      match obj.attrs with
      | none => Except.error ()
      | some m =>
        let x := rectNum m "x"
        let y := rectNum m "y"
        let w := rectNum m "width"
        let h := rectNum m "height"
        Except.ok
          { x := x, y := y, width := w, height := h,
            fill := attrOr m "fill" "#000000",
            issue := if oobCheck sw sh x y w h then some DesignIssue.OUT_OF_BOUNDS else none }

/-- Map rectangle extraction across a sibling list, stopping at the first
thrown error, as the forEach of the source does. -/
def mapExtract (store : Store) (sw sh : JNum) : List JRef → Except Unit (List DesignItem)
  | [] => Except.ok []
  | r :: rs =>
    match extractRect store sw sh r with
    | Except.error e => Except.error e
    | Except.ok it =>
      match mapExtract store sw sh rs with
      | Except.error e => Except.error e
      | Except.ok its => Except.ok (it :: its)

/-- The primitive tag names counted by the source. -/
def elementTypes : List String :=
  ["rect", "path", "circle", "ellipse", "polygon", "polyline", "line", "text", "use", "image"]

/-- Number of siblings contributed by one tag at a node. -/
def childCount (obj : NodeObj) (t : String) : ℕ :=
  match lookupChild obj t with
  | some ch => if childTruthy ch then (toArray ch).length else 0
  | none => 0

/-- Total primitive elements counted at one node. -/
def countTypes (obj : NodeObj) : ℕ :=
  (elementTypes.map (childCount obj)).sum

/-- The mutable traversal state of the source: the visited set (by node
identity), the running element count, and the item list in order. -/
structure WalkState where
  visited : List ℕ
  total : ℕ
  items : List DesignItem
deriving DecidableEq, Repr

/-- The depth cap of the source. -/
def MAX_RECURSION_DEPTH : ℕ := 100

/-- One node visit before recursion: mark visited, add the element counts,
extract the rect children.  Yields the node object and the updated state,
or the thrown error. -/
def nodeStep (store : Store) (sw sh : JNum) (id : ℕ) (s : WalkState) :
    Except Unit (NodeObj × WalkState) :=
  let obj := getObj store id
  let s1 : WalkState :=
    { s with visited := id :: s.visited, total := s.total + countTypes obj }
  match mapExtract store sw sh (childRefs obj "rect") with
  | Except.error e => Except.error e
  | Except.ok newItems => Except.ok (obj, { s1 with items := s1.items ++ newItems })

/-- Run a walker body over a sibling list, threading the state and
stopping at the first error or gas exhaustion. -/
def runList (f : JRef → WalkState → Option (Except Unit WalkState)) :
    List JRef → WalkState → Option (Except Unit WalkState)
  | [], s => some (Except.ok s)
  | r :: rs, s =>
    match f r s with
    | some (Except.ok s2) => runList f rs s2
    | other => other

/-- One level of the recursive walker extractAllElements of the source,
parameterised by the function used for the recursive calls.  The stages
follow the source in order: the falsy-or-too-deep guard, the visited check
(adding a primitive to the WeakSet throws), the visit via nodeStep,
recursion into group children, and recursion into nested svg children
only at positive depth. -/
def walkBody (store : Store) (sw sh : JNum)
    (rec : JRef → ℕ → WalkState → Option (Except Unit WalkState))
    (r : JRef) (depth : ℕ) (s : WalkState) : Option (Except Unit WalkState) :=
  if refTruthy r = false ∨ MAX_RECURSION_DEPTH < depth then some (Except.ok s)
  else
    match r with
    | JRef.str _ => some (Except.error ())
    | JRef.node id =>
      if id ∈ s.visited then some (Except.ok s)
      else
        match nodeStep store sw sh id s with
        | Except.error e => some (Except.error e)
        | Except.ok (obj, s2) =>
          match runList (fun r2 s3 => rec r2 (depth + 1) s3) (childRefs obj "g") s2 with
          | some (Except.ok s3) =>
              runList (fun r2 s4 => rec r2 (depth + 1) s4)
                (if 0 < depth then childRefs obj "svg" else []) s3
          | other => other

/-- The recursive walker extractAllElements of the source, with an
explicit gas parameter standing for the call stack (none means the gas ran
out; the termination theorem shows gas 102 always suffices at depth 0). -/
def extractAllElements (store : Store) (sw sh : JNum) :
    ℕ → JRef → ℕ → WalkState → Option (Except Unit WalkState)
  | 0, _, _, _ => none
  | Nat.succ g, r, depth, s =>
    walkBody store sw sh (fun r2 d2 s2 => extractAllElements store sw sh g r2 d2 s2) r depth s

/-- Resolved canvas size. -/
structure Canvas where
  width : JNum
  height : JNum
deriving DecidableEq, Repr

/-- The condition under which the source falls back from a dimension:
the value is strictly equal to 0 or is NaN. -/
def zeroOrNaN (n : JNum) : Bool :=
  n.eqJs (JNum.num 0) || n.isNaN

/-- Width or height from the attribute map: absent or empty stays 0,
otherwise parseFloat of the stripped text. -/
def attrDim (m : AttrMap) (k : String) : JNum :=
  match lookupA m k with
  | some s => if s = "" then JNum.num 0 else jsParseFloat (stripNonDigitDot s)
  | none => JNum.num 0

/-- The viewBox numbers: split on whitespace or commas, parse each token,
keep the non-NaN ones. -/
def viewBoxNums (vs : String) : List JNum :=
  ((splitWsComma vs).map jsParseFloat).filter (fun n => !n.isNaN)

/-- Width and height after the attribute step and the viewBox step of the
source, before the joint default. -/
def resolveWH (attrs : Option AttrMap) : JNum × JNum :=
  match attrs with
  | none => (JNum.num 0, JNum.num 0)
  | some m =>
    let w := attrDim m "width"
    let h := attrDim m "height"
    match lookupA m "viewBox" with
    | some vs =>
      if vs = "" then (w, h)
      else
        let vb := viewBoxNums vs
        if vb.length = 4 then
          ((if zeroOrNaN w then vb.getD 2 (JNum.num 0) else w),
           (if zeroOrNaN h then vb.getD 3 (JNum.num 0) else h))
        else (w, h)
    | none => (w, h)

/-- Full dimension resolution: the 100 by 100 default applies only when
both dimensions are still 0 or NaN. -/
def resolveDims (attrs : Option AttrMap) : Canvas :=
  let p := resolveWH attrs
  if zeroOrNaN p.1 && zeroOrNaN p.2 then
    { width := JNum.num 100, height := JNum.num 100 }
  else { width := p.1, height := p.2 }

/-- The attribute map used for dimension resolution: the source evaluates
result.svg or-else result and reads the dollar key of that value; a string
or an array has no attribute map. -/
def dimAttrs (store : Store) (rootId : ℕ) : Option AttrMap :=
  let root := getObj store rootId
  match lookupChild root "svg" with
  | some (JChild.one (JRef.node id)) => (getObj store id).attrs
  | some (JChild.one (JRef.str s)) => if s = "" then root.attrs else none
  | some (JChild.many _) => none
  | none => root.attrs

/-- The result record of the source. -/
structure ParsedSVGResult where
  svgWidth : JNum
  svgHeight : JNum
  items : List DesignItem
  itemsCount : ℕ
  coverageRatio : JNum
  issues : List DesignIssue
deriving DecidableEq, Repr

/-- Issue detection and coverage aggregation of the source, applied to a
finished traversal state. -/
def assembleResult (dims : Canvas) (s : WalkState) : ParsedSVGResult :=
  let totalRectArea :=
    s.items.foldl (fun acc it => acc.add (it.width.mul it.height)) (JNum.num 0)
  let svgArea := dims.width.mul dims.height
  { svgWidth := dims.width,
    svgHeight := dims.height,
    items := s.items,
    itemsCount := s.total,
    coverageRatio :=
      if svgArea.gt (JNum.num 0) then totalRectArea.div svgArea else JNum.num 0,
    issues :=
      (if s.total = 0 then [DesignIssue.EMPTY] else []) ++
      (if s.items.any (fun it => decide (it.issue = some DesignIssue.OUT_OF_BOUNDS))
        then [DesignIssue.OUT_OF_BOUNDS] else []) }

/-- The initial traversal state of the source. -/
def initState : WalkState := { visited := [], total := 0, items := [] }

/-- The whole parse after the external XML step: dimension resolution,
the traversal from the root wrapper object at depth 0, then issue
detection and coverage.  An error is a rejected promise. -/
def parseSvg (store : Store) (rootId : ℕ) : Except Unit ParsedSVGResult :=
  let dims := resolveDims (dimAttrs store rootId)
  match extractAllElements store dims.width dims.height 102 (JRef.node rootId) 0 initState with
  | none => Except.error ()
  | some (Except.error e) => Except.error e
  | some (Except.ok s) => Except.ok (assembleResult dims s)

/-- Correct classification of one item against a canvas: the item carries
the OUT_OF_BOUNDS issue exactly when the out-of-bounds test of the source
holds on its fields. -/
def itemOk (sw sh : JNum) (it : DesignItem) : Prop :=
  it.issue = some DesignIssue.OUT_OF_BOUNDS ↔ oobCheck sw sh it.x it.y it.width it.height = true

/-- Relation between a traversal state and a later one: the item list has
only grown, every new item is classified correctly, and the element count
has grown by at least the number of new items. -/
def WalkExt (sw sh : JNum) (s t : WalkState) : Prop :=
  ∃ tail, t.items = s.items ++ tail ∧ s.total + tail.length ≤ t.total ∧
    ∀ it ∈ tail, itemOk sw sh it

/-- Tree of the document with one rectangle at 90 90 of size 20 by 20 on
the default 100 by 100 canvas (the root tag is the rectangle itself, the
shape under which the walker of the source actually reaches content). -/
def storeW6 : Store :=
  [(0, { attrs := none, children := [("rect", JChild.one (JRef.node 1))] }),
   (1, { attrs := some [("x", "90"), ("y", "90"), ("width", "20"), ("height", "20"),
          ("fill", "#f00")], children := [] })]

/-- The item the source extracts from storeW6. -/
def itemW6 : DesignItem :=
  { x := JNum.num 90, y := JNum.num 90, width := JNum.num 20, height := JNum.num 20,
    fill := "#f00", issue := some DesignIssue.OUT_OF_BOUNDS }

/-- The full result the source computes from storeW6. -/
def resW6 : ParsedSVGResult :=
  { svgWidth := JNum.num 100, svgHeight := JNum.num 100, items := [itemW6],
    itemsCount := 1, coverageRatio := JNum.num (1 / 25),
    issues := [DesignIssue.OUT_OF_BOUNDS] }

/-- Tree for the document g-rect-slash-g: a group whose rect child is the
empty string, which is how the external parser renders an attribute-less
empty rect element. -/
def storeC2 : Store :=
  [(0, { attrs := none, children := [("g", JChild.one (JRef.node 1))] }),
   (1, { attrs := none, children := [("rect", JChild.many [JRef.str ""])] })]

/-- A rect node whose width attribute text is not a number. -/
def storeC3 : Store :=
  [(0, { attrs := some [("width", "abc")], children := [] })]

/-- Attribute map with an unparsable width, a parsable height and a
well-formed viewBox. -/
def attrsC4 : AttrMap :=
  [("width", "abc"), ("height", "7"), ("viewBox", "0 0 50 60")]

/-- Tree of a document whose root rectangle has a negative width and a
positive height, on the default canvas. -/
def storeC5 : Store :=
  [(0, { attrs := none, children := [("rect", JChild.one (JRef.node 1))] }),
   (1, { attrs := some [("width", "-2"), ("height", "3")], children := [] })]

/-- A store with a genuine reference cycle: the group child of node 0 is
node 0 itself. -/
def storeCyc : Store :=
  [(0, { attrs := none, children := [("g", JChild.many [JRef.node 0])] })]

/-- A rect node exactly coinciding with a 100 by 100 canvas. -/
def storeB10 : Store :=
  [(0, { attrs := some [("x", "0"), ("y", "0"), ("width", "100"), ("height", "100")],
         children := [] })]

/-- The item the source extracts from storeB10. -/
def itemB10 : DesignItem :=
  { x := JNum.num 0, y := JNum.num 0, width := JNum.num 100, height := JNum.num 100,
    fill := "#000000", issue := none }

theorem extractRect_ok_shape (store : Store) (sw sh : JNum) (r : JRef) (it : DesignItem)
    (h : extractRect store sw sh r = Except.ok it) :
    it.issue = (if oobCheck sw sh it.x it.y it.width it.height then
      some DesignIssue.OUT_OF_BOUNDS else none) := by
  cases r with
  | str s => simp [extractRect] at h
  | node id =>
    cases hS : lookupStore store id with
    | none => simp [extractRect, hS] at h
    | some obj =>
      cases hA : obj.attrs with
      | none => simp [extractRect, hS, hA] at h
      | some m =>
        simp only [extractRect, hS, hA, Except.ok.injEq] at h
        subst h
        rfl

theorem extractRect_ok_itemOk (store : Store) (sw sh : JNum) (r : JRef) (it : DesignItem)
    (h : extractRect store sw sh r = Except.ok it) : itemOk sw sh it := by
  have hs := extractRect_ok_shape store sw sh r it h
  unfold itemOk
  rw [hs]
  by_cases hc : oobCheck sw sh it.x it.y it.width it.height = true
  · simp [hc]
  · simp [hc]

theorem mapExtract_ok_length (store : Store) (sw sh : JNum) :
    ∀ (l : List JRef) (its : List DesignItem),
      mapExtract store sw sh l = Except.ok its → its.length = l.length := by
  intro l
  induction l with
  | nil =>
    intro its h
    simp only [mapExtract, Except.ok.injEq] at h
    subst h
    rfl
  | cons r rs ih =>
    intro its h
    simp only [mapExtract] at h
    cases hr : extractRect store sw sh r with
    | error e => rw [hr] at h; exact absurd h (by simp)
    | ok it =>
      rw [hr] at h
      cases hm : mapExtract store sw sh rs with
      | error e => rw [hm] at h; exact absurd h (by simp)
      | ok its2 =>
        rw [hm] at h
        simp only [Except.ok.injEq] at h
        subst h
        simp [ih its2 hm]

theorem mapExtract_ok_mem (store : Store) (sw sh : JNum) :
    ∀ (l : List JRef) (its : List DesignItem),
      mapExtract store sw sh l = Except.ok its →
      ∀ it ∈ its, ∃ r ∈ l, extractRect store sw sh r = Except.ok it := by
  intro l
  induction l with
  | nil =>
    intro its h
    simp only [mapExtract, Except.ok.injEq] at h
    subst h
    intro it hit
    exact absurd hit (by simp)
  | cons r rs ih =>
    intro its h
    simp only [mapExtract] at h
    cases hr : extractRect store sw sh r with
    | error e => rw [hr] at h; exact absurd h (by simp)
    | ok it0 =>
      rw [hr] at h
      cases hm : mapExtract store sw sh rs with
      | error e => rw [hm] at h; exact absurd h (by simp)
      | ok its2 =>
        rw [hm] at h
        simp only [Except.ok.injEq] at h
        subst h
        intro it hit
        rcases List.mem_cons.mp hit with he | ht
        · exact ⟨r, List.mem_cons_self r rs, he ▸ hr⟩
        · rcases ih its2 hm it ht with ⟨r2, hr2, hok⟩
          exact ⟨r2, List.mem_cons_of_mem r hr2, hok⟩

theorem childCount_rect_eq (obj : NodeObj) :
    childCount obj "rect" = (childRefs obj "rect").length := by
  unfold childCount childRefs
  cases lookupChild obj "rect" with
  | none => rfl
  | some ch =>
    by_cases hc : childTruthy ch = true
    · simp [hc]
    · simp [hc]

theorem rect_le_countTypes (obj : NodeObj) :
    (childRefs obj "rect").length ≤ countTypes obj := by
  rw [← childCount_rect_eq]
  unfold countTypes elementTypes
  simp only [List.map_cons, List.sum_cons]
  omega

theorem WalkExt_refl (sw sh : JNum) (s : WalkState) : WalkExt sw sh s s :=
  ⟨[], by simp, by simp, by simp⟩

theorem WalkExt_trans (sw sh : JNum) (s t u : WalkState)
    (h1 : WalkExt sw sh s t) (h2 : WalkExt sw sh t u) : WalkExt sw sh s u := by
  rcases h1 with ⟨tail1, hi1, ht1, ho1⟩
  rcases h2 with ⟨tail2, hi2, ht2, ho2⟩
  refine ⟨tail1 ++ tail2, ?_, ?_, ?_⟩
  · rw [hi2, hi1, List.append_assoc]
  · simp only [List.length_append]
    omega
  · intro it hit
    rcases List.mem_append.mp hit with h | h
    · exact ho1 it h
    · exact ho2 it h

theorem nodeStep_ok (store : Store) (sw sh : JNum) (id : ℕ) (s : WalkState)
    (obj : NodeObj) (s2 : WalkState)
    (h : nodeStep store sw sh id s = Except.ok (obj, s2)) :
    obj = getObj store id ∧
    ∃ newItems, mapExtract store sw sh (childRefs (getObj store id) "rect") = Except.ok newItems ∧
      s2 = { visited := id :: s.visited, total := s.total + countTypes (getObj store id),
             items := s.items ++ newItems } := by
  simp only [nodeStep] at h
  cases hm : mapExtract store sw sh (childRefs (getObj store id) "rect") with
  | error e => rw [hm] at h; exact absurd h (by simp)
  | ok newItems =>
    rw [hm] at h
    simp only [Except.ok.injEq, Prod.mk.injEq] at h
    exact ⟨h.1.symm, newItems, rfl, h.2.symm⟩

theorem nodeStep_ext (store : Store) (sw sh : JNum) (id : ℕ) (s : WalkState)
    (obj : NodeObj) (s2 : WalkState)
    (h : nodeStep store sw sh id s = Except.ok (obj, s2)) : WalkExt sw sh s s2 := by
  rcases nodeStep_ok store sw sh id s obj s2 h with ⟨-, newItems, hm, hs2⟩
  refine ⟨newItems, ?_, ?_, ?_⟩
  · rw [hs2]
  · rw [hs2]
    have hlen := mapExtract_ok_length store sw sh _ _ hm
    have hle := rect_le_countTypes (getObj store id)
    simp only
    omega
  · intro it hit
    rcases mapExtract_ok_mem store sw sh _ _ hm it hit with ⟨r, -, hok⟩
    exact extractRect_ok_itemOk store sw sh r it hok

theorem runList_ext (sw sh : JNum) (f : JRef → WalkState → Option (Except Unit WalkState))
    (hf : ∀ r s t, f r s = some (Except.ok t) → WalkExt sw sh s t) :
    ∀ (l : List JRef) (s t : WalkState),
      runList f l s = some (Except.ok t) → WalkExt sw sh s t := by
  intro l
  induction l with
  | nil =>
    intro s t h
    simp only [runList, Option.some.injEq, Except.ok.injEq] at h
    subst h
    exact WalkExt_refl sw sh s
  | cons r rs ih =>
    intro s t h
    simp only [runList] at h
    cases hr : f r s with
    | none => rw [hr] at h; exact absurd h (by simp)
    | some e =>
      cases e with
      | error e0 => rw [hr] at h; simp at h
      | ok s2 =>
        rw [hr] at h
        exact WalkExt_trans sw sh s s2 t (hf r s s2 hr) (ih s2 t h)

theorem walkBody_ext (store : Store) (sw sh : JNum)
    (rec : JRef → ℕ → WalkState → Option (Except Unit WalkState))
    (r : JRef) (d : ℕ) (s t : WalkState)
    (hrec : ∀ r2 s2 t2, rec r2 (d + 1) s2 = some (Except.ok t2) → WalkExt sw sh s2 t2)
    (h : walkBody store sw sh rec r d s = some (Except.ok t)) : WalkExt sw sh s t := by
  unfold walkBody at h
  by_cases hg : (refTruthy r = false ∨ MAX_RECURSION_DEPTH < d)
  · rw [if_pos hg] at h
    simp only [Option.some.injEq, Except.ok.injEq] at h
    subst h
    exact WalkExt_refl sw sh s
  · rw [if_neg hg] at h
    cases r with
    | str s0 => simp at h
    | node id =>
      simp only at h
      by_cases hv : id ∈ s.visited
      · rw [if_pos hv] at h
        simp only [Option.some.injEq, Except.ok.injEq] at h
        subst h
        exact WalkExt_refl sw sh s
      · rw [if_neg hv] at h
        cases hN : nodeStep store sw sh id s with
        | error e => rw [hN] at h; simp at h
        | ok p =>
          obtain ⟨obj, s2⟩ := p
          rw [hN] at h
          dsimp only at h
          cases hR : runList (fun r2 s3 => rec r2 (d + 1) s3) (childRefs obj "g") s2 with
          | none => rw [hR] at h; simp at h
          | some e2 =>
            cases e2 with
            | error e0 => rw [hR] at h; simp at h
            | ok s3 =>
              rw [hR] at h
              have h1 := nodeStep_ext store sw sh id s obj s2 hN
              have h2 := runList_ext sw sh _ (fun r2 s4 t2 hx => hrec r2 s4 t2 hx) _ _ _ hR
              have h3 := runList_ext sw sh _ (fun r2 s4 t2 hx => hrec r2 s4 t2 hx) _ _ _ h
              exact WalkExt_trans sw sh s s3 t
                (WalkExt_trans sw sh s s2 s3 (WalkExt_trans sw sh s s2 s2 h1 (WalkExt_refl sw sh s2)) h2) h3

theorem walk_ext (store : Store) (sw sh : JNum) :
    ∀ (g : ℕ) (r : JRef) (d : ℕ) (s t : WalkState),
      extractAllElements store sw sh g r d s = some (Except.ok t) → WalkExt sw sh s t := by
  intro g
  induction g with
  | zero =>
    intro r d s t h
    exact absurd h (by simp [extractAllElements])
  | succ n ih =>
    intro r d s t h
    simp only [extractAllElements] at h
    exact walkBody_ext store sw sh _ r d s t (fun r2 s2 t2 hx => ih r2 (d + 1) s2 t2 hx) h

theorem walkBody_congr (store : Store) (sw sh : JNum)
    (rec1 rec2 : JRef → ℕ → WalkState → Option (Except Unit WalkState))
    (r : JRef) (d : ℕ) (s : WalkState)
    (h : ∀ r2 s2, rec1 r2 (d + 1) s2 = rec2 r2 (d + 1) s2) :
    walkBody store sw sh rec1 r d s = walkBody store sw sh rec2 r d s := by
  unfold walkBody
  have h1 : (fun r2 s3 => rec1 r2 (d + 1) s3) = (fun r2 s3 => rec2 r2 (d + 1) s3) :=
    funext fun r2 => funext fun s3 => h r2 s3
  rw [h1]

theorem walkBody_guard (store : Store) (sw sh : JNum)
    (rec : JRef → ℕ → WalkState → Option (Except Unit WalkState))
    (r : JRef) (d : ℕ) (s : WalkState) (hd : MAX_RECURSION_DEPTH < d) :
    walkBody store sw sh rec r d s = some (Except.ok s) := by
  unfold walkBody
  rw [if_pos (Or.inr hd)]

theorem runList_isSome (f : JRef → WalkState → Option (Except Unit WalkState))
    (hf : ∀ r s, (f r s).isSome = true) :
    ∀ (l : List JRef) (s : WalkState), (runList f l s).isSome = true := by
  intro l
  induction l with
  | nil => intro s; rfl
  | cons r rs ih =>
    intro s
    simp only [runList]
    cases hr : f r s with
    | none => exact absurd (hr ▸ hf r s) (by simp)
    | some e =>
      cases e with
      | error e0 => rfl
      | ok s2 => exact ih s2

theorem walkBody_isSome (store : Store) (sw sh : JNum)
    (rec : JRef → ℕ → WalkState → Option (Except Unit WalkState))
    (r : JRef) (d : ℕ) (s : WalkState)
    (hrec : ∀ r2 s2, (rec r2 (d + 1) s2).isSome = true) :
    (walkBody store sw sh rec r d s).isSome = true := by
  unfold walkBody
  by_cases hg : (refTruthy r = false ∨ MAX_RECURSION_DEPTH < d)
  · rw [if_pos hg]; rfl
  · rw [if_neg hg]
    cases r with
    | str s0 => rfl
    | node id =>
      simp only
      by_cases hv : id ∈ s.visited
      · rw [if_pos hv]; rfl
      · rw [if_neg hv]
        cases hN : nodeStep store sw sh id s with
        | error e => rfl
        | ok p =>
          obtain ⟨obj, s2⟩ := p
          dsimp only
          have hall : ∀ l s0, (runList (fun r2 s3 => rec r2 (d + 1) s3) l s0).isSome = true :=
            runList_isSome _ (fun r2 s3 => hrec r2 s3)
          cases hR : runList (fun r2 s3 => rec r2 (d + 1) s3) (childRefs obj "g") s2 with
          | none => exact absurd (hR ▸ hall (childRefs obj "g") s2) (by simp)
          | some e2 =>
            cases e2 with
            | error e0 => rfl
            | ok s3 => exact hall _ s3

theorem walk_gas_succ (store : Store) (sw sh : JNum) :
    ∀ (g d : ℕ) (r : JRef) (s : WalkState), 1 ≤ g → 102 ≤ g + d →
      extractAllElements store sw sh g r d s = extractAllElements store sw sh (g + 1) r d s := by
  intro g
  induction g with
  | zero => intro d r s h1 h2; exact absurd h1 (by omega)
  | succ n ih =>
    intro d r s h1 h2
    show walkBody store sw sh (fun r2 d2 s2 => extractAllElements store sw sh n r2 d2 s2) r d s =
      walkBody store sw sh (fun r2 d2 s2 => extractAllElements store sw sh (n + 1) r2 d2 s2) r d s
    by_cases hd : MAX_RECURSION_DEPTH < d
    · rw [walkBody_guard store sw sh _ r d s hd, walkBody_guard store sw sh _ r d s hd]
    · have hd100 : d ≤ 100 := by
        have : MAX_RECURSION_DEPTH = 100 := rfl
        omega
      apply walkBody_congr
      intro r2 s2
      exact ih (d + 1) r2 s2 (by omega) (by omega)

theorem walk_gas_add (store : Store) (sw sh : JNum) :
    ∀ (k g d : ℕ) (r : JRef) (s : WalkState), 1 ≤ g → 102 ≤ g + d →
      extractAllElements store sw sh g r d s = extractAllElements store sw sh (g + k) r d s := by
  intro k
  induction k with
  | zero => intro g d r s h1 h2; rfl
  | succ n ih =>
    intro g d r s h1 h2
    rw [ih g d r s h1 h2]
    have := walk_gas_succ store sw sh (g + n) d r s (by omega) (by omega)
    rw [this]
    rfl

theorem walk_gas_eq (store : Store) (sw sh : JNum)
    (g1 g2 d : ℕ) (r : JRef) (s : WalkState)
    (h1 : 1 ≤ g1) (h2 : 1 ≤ g2) (h3 : 102 ≤ g1 + d) (h4 : 102 ≤ g2 + d) :
    extractAllElements store sw sh g1 r d s = extractAllElements store sw sh g2 r d s := by
  rcases Nat.le_total g1 g2 with hle | hle
  · have := walk_gas_add store sw sh (g2 - g1) g1 d r s h1 h3
    rw [this]
    congr 1
    omega
  · have := walk_gas_add store sw sh (g1 - g2) g2 d r s h2 h4
    rw [this]
    congr 1
    omega

theorem walk_isSome (store : Store) (sw sh : JNum) :
    ∀ (g d : ℕ) (r : JRef) (s : WalkState), 1 ≤ g → 102 ≤ g + d →
      (extractAllElements store sw sh g r d s).isSome = true := by
  intro g
  induction g with
  | zero => intro d r s h1 h2; exact absurd h1 (by omega)
  | succ n ih =>
    intro d r s h1 h2
    show (walkBody store sw sh (fun r2 d2 s2 => extractAllElements store sw sh n r2 d2 s2) r d s).isSome = true
    by_cases hd : MAX_RECURSION_DEPTH < d
    · rw [walkBody_guard store sw sh _ r d s hd]; rfl
    · have hd100 : d ≤ 100 := by
        have : MAX_RECURSION_DEPTH = 100 := rfl
        omega
      apply walkBody_isSome
      intro r2 s2
      exact ih (d + 1) r2 s2 (by omega) (by omega)

theorem parseSvg_ok_inv (store : Store) (rootId : ℕ) (res : ParsedSVGResult)
    (h : parseSvg store rootId = Except.ok res) :
    ∃ s, extractAllElements store (resolveDims (dimAttrs store rootId)).width
        (resolveDims (dimAttrs store rootId)).height 102 (JRef.node rootId) 0 initState =
        some (Except.ok s) ∧
      res = assembleResult (resolveDims (dimAttrs store rootId)) s := by
  simp only [parseSvg] at h
  cases hE : extractAllElements store (resolveDims (dimAttrs store rootId)).width
      (resolveDims (dimAttrs store rootId)).height 102 (JRef.node rootId) 0 initState with
  | none => rw [hE] at h; simp at h
  | some e =>
    cases e with
    | error e0 => rw [hE] at h; simp at h
    | ok s =>
      rw [hE] at h
      simp only [Except.ok.injEq] at h
      exact ⟨s, rfl, h.symm⟩

theorem assembleResult_items (dims : Canvas) (s : WalkState) :
    (assembleResult dims s).items = s.items := rfl

theorem assembleResult_itemsCount (dims : Canvas) (s : WalkState) :
    (assembleResult dims s).itemsCount = s.total := rfl

theorem assembleResult_svgWidth (dims : Canvas) (s : WalkState) :
    (assembleResult dims s).svgWidth = dims.width := rfl

theorem assembleResult_svgHeight (dims : Canvas) (s : WalkState) :
    (assembleResult dims s).svgHeight = dims.height := rfl

theorem assembleResult_issues (dims : Canvas) (s : WalkState) :
    (assembleResult dims s).issues =
      (if s.total = 0 then [DesignIssue.EMPTY] else []) ++
      (if s.items.any (fun it => decide (it.issue = some DesignIssue.OUT_OF_BOUNDS))
        then [DesignIssue.OUT_OF_BOUNDS] else []) := rfl

theorem assembleResult_coverage (dims : Canvas) (s : WalkState) :
    (assembleResult dims s).coverageRatio =
      (if (dims.width.mul dims.height).gt (JNum.num 0) then
        (s.items.foldl (fun acc it => acc.add (it.width.mul it.height)) (JNum.num 0)).div
          (dims.width.mul dims.height)
      else JNum.num 0) := rfl

theorem JNum.lt_self_false (n : JNum) : n.lt n = false := by
  cases n with
  | num q => simp [JNum.lt]
  | posInf => rfl
  | negInf => rfl
  | nan => rfl

theorem JNum.add_nonneg_of (a b : JNum) (ha : a.isNonnegNum = true) (hb : b.isNonnegNum = true) :
    (a.add b).isNonnegNum = true := by
  cases a with
  | num qa =>
    cases b with
    | num qb =>
      simp only [JNum.isNonnegNum, decide_eq_true_eq] at ha hb
      simp only [JNum.add, JNum.isNonnegNum, decide_eq_true_eq]
      exact add_nonneg ha hb
    | posInf => simp [JNum.isNonnegNum] at hb
    | negInf => simp [JNum.isNonnegNum] at hb
    | nan => simp [JNum.isNonnegNum] at hb
  | posInf => simp [JNum.isNonnegNum] at ha
  | negInf => simp [JNum.isNonnegNum] at ha
  | nan => simp [JNum.isNonnegNum] at ha

theorem fold_area_nonneg (l : List DesignItem)
    (hl : ∀ it ∈ l, (it.width.mul it.height).isNonnegNum = true) :
    ∀ acc : JNum, acc.isNonnegNum = true →
      (l.foldl (fun a it => a.add (it.width.mul it.height)) acc).isNonnegNum = true := by
  induction l with
  | nil => intro acc hacc; exact hacc
  | cons it rest ih =>
    intro acc hacc
    simp only [List.foldl_cons]
    exact ih (fun it2 h2 => hl it2 (List.mem_cons_of_mem it h2))
      (acc.add (it.width.mul it.height))
      (JNum.add_nonneg_of acc _ hacc (hl it (List.mem_cons_self it rest)))

theorem JNum.gt_zero_cases (n : JNum) (h : n.gt (JNum.num 0) = true) :
    n = JNum.posInf ∨ ∃ q : ℚ, n = JNum.num q ∧ 0 < q := by
  cases n with
  | num q =>
    right
    refine ⟨q, rfl, ?_⟩
    simpa [JNum.gt, JNum.lt] using h
  | posInf => left; rfl
  | negInf => simp [JNum.gt, JNum.lt] at h
  | nan => simp [JNum.gt, JNum.lt] at h

theorem JNum.div_nonneg_of (t d : JNum) (ht : t.isNonnegNum = true)
    (hd : d.gt (JNum.num 0) = true) : (t.div d).isNonnegNum = true := by
  cases t with
  | num qt =>
    simp only [JNum.isNonnegNum, decide_eq_true_eq] at ht
    rcases JNum.gt_zero_cases d hd with hpi | ⟨q, hq, hqpos⟩
    · subst hpi
      simp [JNum.div, JNum.isNonnegNum]
    · subst hq
      have hne : q ≠ 0 := ne_of_gt hqpos
      simp only [JNum.div, if_neg hne, JNum.isNonnegNum, decide_eq_true_eq]
      exact div_nonneg ht (le_of_lt hqpos)
  | posInf => simp [JNum.isNonnegNum] at ht
  | negInf => simp [JNum.isNonnegNum] at ht
  | nan => simp [JNum.isNonnegNum] at ht

theorem resolveDims_default (attrs : Option AttrMap)
    (hw : zeroOrNaN (resolveWH attrs).1 = true) (hh : zeroOrNaN (resolveWH attrs).2 = true) :
    resolveDims attrs = { width := JNum.num 100, height := JNum.num 100 } := by
  unfold resolveDims
  have hc : (zeroOrNaN (resolveWH attrs).1 && zeroOrNaN (resolveWH attrs).2) = true := by
    rw [hw, hh]
    rfl
  simp [hc]

/-- Claim C1, corrected.  When both dimensions are still 0 or NaN after the
attribute and viewBox steps, the joint default applies and the resolved
canvas is 100 by 100, so both dimensions are positive.  The claim as
stated fails when exactly one dimension resolves: the other stays 0 and
the default is not applied (see the counterexample). -/
theorem C1_default_positive (attrs : Option AttrMap)
    (hw : zeroOrNaN (resolveWH attrs).1 = true) (hh : zeroOrNaN (resolveWH attrs).2 = true) :
    resolveDims attrs = { width := JNum.num 100, height := JNum.num 100 } ∧
    (resolveDims attrs).width.gt (JNum.num 0) = true ∧
    (resolveDims attrs).height.gt (JNum.num 0) = true := by
  have hd := resolveDims_default attrs hw hh
  refine ⟨hd, ?_, ?_⟩ <;> rw [hd] <;> with_unfolding_all rfl

/-- Claim C1 witness: a document with no attributes at all resolves to the
100 by 100 default, with both dimensions positive. -/
theorem C1_default_positive_witness :
    resolveDims none = { width := JNum.num 100, height := JNum.num 100 } ∧
    (resolveDims none).width.gt (JNum.num 0) = true ∧
    (resolveDims none).height.gt (JNum.num 0) = true :=
  C1_default_positive none (by with_unfolding_all rfl) (by with_unfolding_all rfl)

/-- Claim C1 counterexample: with only a width attribute of 50 and no viewBox,
exactly one dimension resolves; the default is not applied and the
resolved height is 0, which is not positive. -/
theorem C1_claim_cex :
    resolveDims (some [("width", "50")]) = { width := JNum.num 50, height := JNum.num 0 } ∧
    (resolveDims (some [("width", "50")])).height.gt (JNum.num 0) = false :=
  ⟨by with_unfolding_all rfl, by with_unfolding_all rfl⟩

/-- Claim C2, a code bug.  The source reads rect.attrs.x without a guard, so a rect node
with no attribute map (the empty-string rendering of an attribute-less
empty rect element inside a group) throws a TypeError and the whole parse
is rejected, contradicting the never-raises contract of the spec. -/
theorem C2_attrless_rect_throws : parseSvg storeC2 0 = Except.error () := by
  with_unfolding_all rfl

/-- Claim C3 counterexample: a present but unparsable width attribute text is
parsed to NaN, not to 0. -/
theorem C3_claim_cex :
    (extractRect storeC3 (JNum.num 100) (JNum.num 100) (JRef.node 0)).toOption.map
      DesignItem.width = some JNum.nan ∧ JNum.nan ≠ JNum.num 0 :=
  ⟨by with_unfolding_all rfl, by simp⟩

/-- Claim C3, corrected.  A rect geometry attribute that is absent or has empty
text is coerced to 0 through the or-default; present unparsable text goes
through parseFloat unchanged and yields NaN (see the counterexample). -/
theorem C3_absent_or_empty_zero (m : AttrMap) (k : String)
    (h : lookupA m k = none ∨ lookupA m k = some "") : rectNum m k = JNum.num 0 := by
  unfold rectNum attrOr
  rcases h with h | h <;> rw [h]
  · with_unfolding_all rfl
  · with_unfolding_all rfl

/-- Claim C3 witness: the empty attribute map gives 0 for the width key. -/
theorem C3_absent_or_empty_zero_witness : rectNum [] "width" = JNum.num 0 :=
  C3_absent_or_empty_zero [] "width" (Or.inl rfl)

/-- Claim C4 counterexample: a present width attribute that parses to NaN is
replaced by the third viewBox number (50), so the present-but-unparsable
attribute is not preferred over a well-formed viewBox. -/
theorem C4_claim_cex :
    attrDim attrsC4 "width" = JNum.nan ∧
    (resolveDims (some attrsC4)).width = JNum.num 50 :=
  ⟨by with_unfolding_all rfl, by with_unfolding_all rfl⟩

/-- Claim C4, corrected.  The viewBox fallback replaces the width exactly when
the attribute value resolved to 0 or NaN; in particular a present but
unparsable (NaN) width attribute is replaced by the third number of a
well-formed viewBox. -/
theorem C4_viewbox_replaces_zero_or_nan (m : AttrMap) (vs : String)
    (hvb : lookupA m "viewBox" = some vs) (hne : vs ≠ "")
    (hlen : (viewBoxNums vs).length = 4)
    (hz : zeroOrNaN (attrDim m "width") = true) :
    (resolveWH (some m)).1 = (viewBoxNums vs).getD 2 (JNum.num 0) := by
  simp only [resolveWH, hvb]
  rw [if_neg hne]
  simp only [hlen, if_pos, hz, if_true]

/-- Claim C4 witness: the concrete attribute map with width abc and viewBox
0 0 50 60 resolves its width from the viewBox. -/
theorem C4_viewbox_replaces_zero_or_nan_witness :
    (resolveWH (some attrsC4)).1 = (viewBoxNums "0 0 50 60").getD 2 (JNum.num 0) :=
  C4_viewbox_replaces_zero_or_nan attrsC4 "0 0 50 60" (by with_unfolding_all rfl)
    (by simp) (by with_unfolding_all rfl) (by with_unfolding_all rfl)

/-- Claim C5 counterexample: a rectangle with width -2 and height 3 on the
default canvas yields a strictly negative coverage ratio. -/
theorem C5_claim_cex :
    (parseSvg storeC5 0).toOption.map (fun r => r.coverageRatio.lt (JNum.num 0)) = some true := by
  with_unfolding_all rfl

/-- Claim C5, corrected.  The coverage ratio is a nonnegative finite
number whenever every extracted rectangle has a nonnegative finite area;
a rectangle with exactly one negative dimension makes the ratio negative
(see the counterexample). -/
theorem C5_coverage_nonneg (store : Store) (rootId : ℕ) (res : ParsedSVGResult)
    (h : parseSvg store rootId = Except.ok res)
    (hitems : ∀ it ∈ res.items, (it.width.mul it.height).isNonnegNum = true) :
    res.coverageRatio.isNonnegNum = true := by
  rcases parseSvg_ok_inv store rootId res h with ⟨s, hE, hres⟩
  subst hres
  rw [assembleResult_items] at hitems
  rw [assembleResult_coverage]
  by_cases hgt : ((resolveDims (dimAttrs store rootId)).width.mul
      (resolveDims (dimAttrs store rootId)).height).gt (JNum.num 0) = true
  · rw [if_pos hgt]
    apply JNum.div_nonneg_of _ _ _ hgt
    exact fold_area_nonneg s.items hitems (JNum.num 0) (by with_unfolding_all rfl)
  · rw [if_neg hgt]
    with_unfolding_all rfl

/-- Claim C5 witness: the document with one 20 by 20 rectangle has a
nonnegative coverage ratio. -/
theorem C5_coverage_nonneg_witness : resW6.coverageRatio.isNonnegNum = true := by
  apply C5_coverage_nonneg storeW6 0 resW6 (by with_unfolding_all rfl)
  intro it hit
  have hres : resW6.items = [itemW6] := rfl
  rw [hres] at hit
  rcases List.mem_singleton.mp hit with h
  subst h
  with_unfolding_all rfl

/-- Claim C6, confirmed.  Every extracted rectangle of a successful parse,
at any nesting depth, carries the OUT_OF_BOUNDS issue exactly when the
out-of-bounds test holds on its fields against the document-level
resolved canvas size returned in the result. -/
theorem C6_oob_iff (store : Store) (rootId : ℕ) (res : ParsedSVGResult)
    (h : parseSvg store rootId = Except.ok res) :
    ∀ it ∈ res.items,
      (it.issue = some DesignIssue.OUT_OF_BOUNDS ↔
        oobCheck res.svgWidth res.svgHeight it.x it.y it.width it.height = true) := by
  rcases parseSvg_ok_inv store rootId res h with ⟨s, hE, hres⟩
  subst hres
  intro it hit
  rw [assembleResult_items] at hit
  rw [assembleResult_svgWidth, assembleResult_svgHeight]
  rcases walk_ext store _ _ 102 (JRef.node rootId) 0 initState s hE with ⟨tail, hitems, -, hok⟩
  have h1 : s.items = tail := by simpa [initState] using hitems
  rw [h1] at hit
  exact hok it hit

/-- Claim C6 witness: the 90 90 20 20 rectangle on the 100 by 100 canvas
instantiates the classification equivalence. -/
theorem C6_oob_iff_witness :
    itemW6.issue = some DesignIssue.OUT_OF_BOUNDS ↔
      oobCheck resW6.svgWidth resW6.svgHeight itemW6.x itemW6.y itemW6.width itemW6.height = true :=
  C6_oob_iff storeW6 0 resW6 (by with_unfolding_all rfl) itemW6
    (show itemW6 ∈ [itemW6] from List.mem_singleton_self itemW6)

theorem walkBody_visited (store : Store) (sw sh : JNum)
    (rec : JRef → ℕ → WalkState → Option (Except Unit WalkState))
    (id : ℕ) (d : ℕ) (s : WalkState) (hv : id ∈ s.visited) :
    walkBody store sw sh rec (JRef.node id) d s = some (Except.ok s) := by
  unfold walkBody
  by_cases hg : (refTruthy (JRef.node id) = false ∨ MAX_RECURSION_DEPTH < d)
  · rw [if_pos hg]
  · rw [if_neg hg]
    simp only
    rw [if_pos hv]

/-- Claim C7, confirmed.  Traversal terminates on every store, including
stores with shared or cyclic references and arbitrarily deep nesting: for
any two gas budgets covering the 100-deep recursion guard the walker
returns the same defined result (so the recursion never needs more than a
fixed stack), descent is refused past depth 100, and a node already in
the visited set is skipped entirely. -/
theorem C7_traversal_terminates (store : Store) (sw sh : JNum) (g1 g2 d : ℕ) (r : JRef)
    (s : WalkState) (hg1 : 1 ≤ g1) (hg2 : 1 ≤ g2)
    (hd1 : 102 ≤ g1 + d) (hd2 : 102 ≤ g2 + d) :
    extractAllElements store sw sh g1 r d s = extractAllElements store sw sh g2 r d s ∧
    (extractAllElements store sw sh g1 r d s).isSome = true ∧
    (MAX_RECURSION_DEPTH < d → extractAllElements store sw sh g1 r d s = some (Except.ok s)) ∧
    (∀ id, r = JRef.node id → id ∈ s.visited →
      extractAllElements store sw sh g1 r d s = some (Except.ok s)) := by
  obtain ⟨n, rfl⟩ : ∃ n, g1 = n + 1 := ⟨g1 - 1, by omega⟩
  refine ⟨walk_gas_eq store sw sh (n + 1) g2 d r s hg1 hg2 hd1 hd2,
    walk_isSome store sw sh (n + 1) d r s hg1 hd1, ?_, ?_⟩
  · intro hd
    exact walkBody_guard store sw sh _ r d s hd
  · intro id hr hv
    subst hr
    exact walkBody_visited store sw sh _ id d s hv

/-- Claim C7 witness: on the genuinely cyclic store the walker returns the
same defined result with gas 102 and gas 150. -/
theorem C7_traversal_terminates_witness :
    extractAllElements storeCyc JNum.nan JNum.nan 102 (JRef.node 0) 0 initState =
      extractAllElements storeCyc JNum.nan JNum.nan 150 (JRef.node 0) 0 initState ∧
    (extractAllElements storeCyc JNum.nan JNum.nan 102 (JRef.node 0) 0 initState).isSome = true :=
  ⟨(C7_traversal_terminates storeCyc JNum.nan JNum.nan 102 150 0 (JRef.node 0) initState
      (by omega) (by omega) (by omega) (by omega)).1,
   (C7_traversal_terminates storeCyc JNum.nan JNum.nan 102 150 0 (JRef.node 0) initState
      (by omega) (by omega) (by omega) (by omega)).2.1⟩

/-- Claim C8, confirmed.  In every successful parse the returned element
count is at least the number of extracted rectangle items: the count sums
all primitive tag types at each visited node, of which the rect siblings
are a subset, under the same visited-set and depth guards. -/
theorem C8_count_ge_items (store : Store) (rootId : ℕ) (res : ParsedSVGResult)
    (h : parseSvg store rootId = Except.ok res) : res.items.length ≤ res.itemsCount := by
  rcases parseSvg_ok_inv store rootId res h with ⟨s, hE, hres⟩
  subst hres
  rw [assembleResult_items, assembleResult_itemsCount]
  rcases walk_ext store _ _ 102 (JRef.node rootId) 0 initState s hE with ⟨tail, hitems, htot, -⟩
  have h1 : s.items = tail := by simpa [initState] using hitems
  have h2 : 0 + tail.length ≤ s.total := by
    have : initState.total + tail.length ≤ s.total := htot
    simpa [initState] using this
  rw [h1]
  omega

/-- Claim C8 witness: the one-rectangle document has count 1 and one
item. -/
theorem C8_count_ge_items_witness : resW6.items.length ≤ resW6.itemsCount :=
  C8_count_ge_items storeW6 0 resW6 (by with_unfolding_all rfl)

/-- Claim C9, confirmed.  The issues of a successful parse never contain
both EMPTY and OUT_OF_BOUNDS: EMPTY forces a zero element count, the
count bounds the number of extracted rectangles, and OUT_OF_BOUNDS needs
at least one extracted rectangle. -/
theorem C9_issues_exclusive (store : Store) (rootId : ℕ) (res : ParsedSVGResult)
    (h : parseSvg store rootId = Except.ok res) :
    ¬ (DesignIssue.EMPTY ∈ res.issues ∧ DesignIssue.OUT_OF_BOUNDS ∈ res.issues) := by
  rcases parseSvg_ok_inv store rootId res h with ⟨s, hE, hres⟩
  subst hres
  rw [assembleResult_issues]
  rintro ⟨hemp, hoob⟩
  by_cases ht : s.total = 0
  · rcases walk_ext store _ _ 102 (JRef.node rootId) 0 initState s hE with ⟨tail, hitems, htot, -⟩
    have h1 : s.items = tail := by simpa [initState] using hitems
    have h2 : initState.total + tail.length ≤ s.total := htot
    have h3 : tail.length = 0 := by
      simp only [initState] at h2
      omega
    have hnil : s.items = [] := by
      rw [h1]
      exact List.length_eq_zero.mp h3
    rw [hnil] at hoob
    simp [ht] at hoob
  · rw [if_neg ht] at hemp
    rw [List.nil_append] at hemp
    by_cases ha : s.items.any (fun it => decide (it.issue = some DesignIssue.OUT_OF_BOUNDS)) = true
    · rw [if_pos ha] at hemp
      simp at hemp
    · rw [if_neg ha] at hemp
      simp at hemp

/-- Claim C9 witness: the one-rectangle document carries OUT_OF_BOUNDS
but not both issues. -/
theorem C9_issues_exclusive_witness :
    ¬ (DesignIssue.EMPTY ∈ resW6.issues ∧ DesignIssue.OUT_OF_BOUNDS ∈ resW6.issues) :=
  C9_issues_exclusive storeW6 0 resW6 (by with_unfolding_all rfl)

/-- Claim C10, confirmed.  A rectangle whose extracted geometry coincides
exactly with the canvas boundary is classified in bounds and carries no
issue, because the comparisons of the out-of-bounds test are strict. -/
theorem C10_boundary_in_bounds (store : Store) (sw sh : JNum) (r : JRef) (it : DesignItem)
    (h : extractRect store sw sh r = Except.ok it)
    (hx : it.x = JNum.num 0) (hy : it.y = JNum.num 0)
    (hw : it.x.add it.width = sw) (hh : it.y.add it.height = sh) :
    it.issue = none := by
  have hs := extractRect_ok_shape store sw sh r it h
  rw [hs]
  have hoob : oobCheck sw sh it.x it.y it.width it.height = false := by
    unfold oobCheck
    rw [← hw, ← hh, hx, hy]
    simp only [JNum.gt, JNum.lt_self_false, Bool.or_false, Bool.false_or]
  rw [hoob]
  simp

/-- Claim C10 witness: the rectangle 0 0 100 100 on a 100 by 100 canvas
carries no issue. -/
theorem C10_boundary_in_bounds_witness : itemB10.issue = none :=
  C10_boundary_in_bounds storeB10 (JNum.num 100) (JNum.num 100) (JRef.node 0) itemB10
    (by with_unfolding_all rfl) rfl rfl (by with_unfolding_all rfl) (by with_unfolding_all rfl)
